import Mathlib

/-!
A verification development for the ACME client core of this repository
(`src/acme/md_acme.c` and `src/md_acme_authz.c`).

The C code is shallowly embedded: APR status codes become the inductive
`ApStatus`, session state (`md_acme_t`) becomes the structure `Acme` with
explicit state passing, the HTTP collaborator is modelled by a trace
(`World`) of transport responses consumed in order, and JSON (an external
collaborator, jansson behind `md_json`) is modelled by the inductive `Json`.
Per-request pools are instrumented with an explicit release counter so that
resource-lifetime statements can be proved about the model.
-/

/-- APR status codes used by the two source files.  `success` is
`APR_SUCCESS`; the others are the APR error codes appearing in the source.
`other` covers any further transport error handed through from the HTTP
collaborator. -/
inductive ApStatus where
  | success
  | einval
  | badarg
  | eacces
  | eagain
  | enoent
  | enotimpl
  | egeneral
  | other (code : Nat)
deriving DecidableEq, Repr

/-- ASCII lower-casing of one character (what `apr_tolower` does on the
byte values the source compares). -/
def lowChar (c : Char) : Char :=
  if c.toNat ≥ 65 ∧ c.toNat ≤ 90 then Char.ofNat (c.toNat + 32) else c

/-- Lower-cased character sequence of a string. -/
def lowStr (s : String) : List Char := s.data.map lowChar

/-- Equality test of `apr_strnatcasecmp` (an external APR routine, pinned by
the spec as case-insensitive comparison): two strings are equal iff they
agree after ASCII case folding. -/
def natEq (a b : String) : Bool := lowStr a == lowStr b

/-- `strstr(t, p) == t`: does `t` start with `p`? -/
def strStarts (p t : String) : Bool := p.data.isPrefixOf t.data

/-- `t += n`: drop the first `n` characters of `t`. -/
def strDrop (t : String) (n : Nat) : String := ⟨t.data.drop n⟩

/-- The `Problems` table of `md_acme.c` (lines 43-62), in source order. -/
def Problems : List (String × ApStatus) :=
  [ ("acme:error:badCSR",                ApStatus.einval),
    ("acme:error:badNonce",              ApStatus.egeneral),
    ("acme:error:badSignatureAlgorithm", ApStatus.einval),
    ("acme:error:invalidContact",        ApStatus.badarg),
    ("acme:error:unsupportedContact",    ApStatus.egeneral),
    ("acme:error:malformed",             ApStatus.einval),
    ("acme:error:rateLimited",           ApStatus.badarg),
    ("acme:error:rejectedIdentifier",    ApStatus.badarg),
    ("acme:error:serverInternal",        ApStatus.egeneral),
    ("acme:error:unauthorized",          ApStatus.eacces),
    ("acme:error:unsupportedIdentifier", ApStatus.badarg),
    ("acme:error:userActionRequired",    ApStatus.eagain),
    ("acme:error:badRevocationReason",   ApStatus.einval),
    ("acme:error:caa",                   ApStatus.egeneral),
    ("acme:error:dns",                   ApStatus.egeneral),
    ("acme:error:connection",            ApStatus.egeneral),
    ("acme:error:tls",                   ApStatus.egeneral),
    ("acme:error:incorrectResponse",     ApStatus.egeneral) ]

/-- The leading-URN stripping of `problem_status_get` (md_acme.c lines
67-72): strip `urn:ietf:params:` (16 characters), or else `urn:`
(4 characters). -/
def strip_urn (t : String) : String :=
  if strStarts "urn:ietf:params:" t then strDrop t 16
  else if strStarts "urn:" t then strDrop t 4
  else t

/-- `problem_status_get` (md_acme.c lines 64-80): strip the URN prefix,
scan the `Problems` table with `apr_strnatcasecmp`, default to
`APR_EGENERAL`. -/
def problem_status_get (ptype : String) : ApStatus :=
  let t := strip_urn ptype
  match Problems.find? (fun e => natEq t e.1) with
  | some e => e.2
  | none => ApStatus.egeneral

/-- The problem classification as the spec words it (§4.1): after prefix
stripping, the four `badCSR`-group entries map to `InvalidArgument`, the
four `invalidContact`-group entries to `BadRequest`, `unauthorized` to
`Forbidden`, `userActionRequired` to `AgainLater`; both the remaining
listed entries and every unknown type yield `General` (the final branch). -/
def problem_kind_spec (ptype : String) : ApStatus :=
  let t := strip_urn ptype
  if natEq t "acme:error:badCSR" ∨ natEq t "acme:error:badSignatureAlgorithm"
     ∨ natEq t "acme:error:malformed" ∨ natEq t "acme:error:badRevocationReason" then
    ApStatus.einval
  else if natEq t "acme:error:invalidContact" ∨ natEq t "acme:error:rateLimited"
     ∨ natEq t "acme:error:rejectedIdentifier" ∨ natEq t "acme:error:unsupportedIdentifier" then
    ApStatus.badarg
  else if natEq t "acme:error:unauthorized" then
    ApStatus.eacces
  else if natEq t "acme:error:userActionRequired" then
    ApStatus.eagain
  else
    ApStatus.egeneral

/-- Case analysis on a folded string against the `Problems` table: the
source-order table scan and the spec-order classification chain agree. -/
theorem classify_cases (l : List Char) :
    (match Problems.find? (fun e => l == lowStr e.1) with
      | some e => e.2
      | none => ApStatus.egeneral) =
    (if (l == lowStr "acme:error:badCSR") = true
        ∨ (l == lowStr "acme:error:badSignatureAlgorithm") = true
        ∨ (l == lowStr "acme:error:malformed") = true
        ∨ (l == lowStr "acme:error:badRevocationReason") = true then
      ApStatus.einval
    else if (l == lowStr "acme:error:invalidContact") = true
        ∨ (l == lowStr "acme:error:rateLimited") = true
        ∨ (l == lowStr "acme:error:rejectedIdentifier") = true
        ∨ (l == lowStr "acme:error:unsupportedIdentifier") = true then
      ApStatus.badarg
    else if (l == lowStr "acme:error:unauthorized") = true then
      ApStatus.eacces
    else if (l == lowStr "acme:error:userActionRequired") = true then
      ApStatus.eagain
    else
      ApStatus.egeneral) := by
  by_cases h1 : (l == lowStr "acme:error:badCSR") = true
  · have h := eq_of_beq h1; subst h; decide
  by_cases h2 : (l == lowStr "acme:error:badNonce") = true
  · have h := eq_of_beq h2; subst h; decide
  by_cases h3 : (l == lowStr "acme:error:badSignatureAlgorithm") = true
  · have h := eq_of_beq h3; subst h; decide
  by_cases h4 : (l == lowStr "acme:error:invalidContact") = true
  · have h := eq_of_beq h4; subst h; decide
  by_cases h5 : (l == lowStr "acme:error:unsupportedContact") = true
  · have h := eq_of_beq h5; subst h; decide
  by_cases h6 : (l == lowStr "acme:error:malformed") = true
  · have h := eq_of_beq h6; subst h; decide
  by_cases h7 : (l == lowStr "acme:error:rateLimited") = true
  · have h := eq_of_beq h7; subst h; decide
  by_cases h8 : (l == lowStr "acme:error:rejectedIdentifier") = true
  · have h := eq_of_beq h8; subst h; decide
  by_cases h9 : (l == lowStr "acme:error:serverInternal") = true
  · have h := eq_of_beq h9; subst h; decide
  by_cases h10 : (l == lowStr "acme:error:unauthorized") = true
  · have h := eq_of_beq h10; subst h; decide
  by_cases h11 : (l == lowStr "acme:error:unsupportedIdentifier") = true
  · have h := eq_of_beq h11; subst h; decide
  by_cases h12 : (l == lowStr "acme:error:userActionRequired") = true
  · have h := eq_of_beq h12; subst h; decide
  by_cases h13 : (l == lowStr "acme:error:badRevocationReason") = true
  · have h := eq_of_beq h13; subst h; decide
  by_cases h14 : (l == lowStr "acme:error:caa") = true
  · have h := eq_of_beq h14; subst h; decide
  by_cases h15 : (l == lowStr "acme:error:dns") = true
  · have h := eq_of_beq h15; subst h; decide
  by_cases h16 : (l == lowStr "acme:error:connection") = true
  · have h := eq_of_beq h16; subst h; decide
  by_cases h17 : (l == lowStr "acme:error:tls") = true
  · have h := eq_of_beq h17; subst h; decide
  by_cases h18 : (l == lowStr "acme:error:incorrectResponse") = true
  · have h := eq_of_beq h18; subst h; decide
  simp [List.find?, h1, h2, h3, h4, h5, h6, h7, h8, h9, h10,
        h11, h12, h13, h14, h15, h16, h17, h18]

/-- C7: the problem classifier of the source agrees with the table of spec
§4.1 on every input string: the `urn:ietf:params:` / `urn:` prefix is
stripped, each table entry maps to its listed kind under case-insensitive
comparison, and every other string yields `General`. -/
theorem problem_classifier_matches_spec :
    ∀ s, problem_status_get s = problem_kind_spec s := by
  intro s
  unfold problem_status_get problem_kind_spec
  exact classify_cases (lowStr (strip_urn s))

/-! ## JSON model (`md_json`, an external collaborator backed by jansson) -/

/-- JSON values, as far as the two source files use them. -/
inductive Json where
  | str (v : String)
  | num (v : Int)
  | obj (mems : List (String × Json))
  | arr (elems : List Json)

/-- Object member lookup (jansson keys are case-sensitive). -/
def jmem : Json → String → Option Json
  | Json.obj mems, k => (mems.find? (fun m => m.1 == k)).map (fun m => m.2)
  | _, _ => none

/-- Dereference a key path. -/
def jget : Json → List String → Option Json
  | j, [] => some j
  | j, k :: ks =>
    match jmem j k with
    | some j2 => jget j2 ks
    | none => none

/-- `md_json_gets`: string value at a key path, `NULL` (`none`) otherwise. -/
def md_json_gets (j : Json) (keys : List String) : Option String :=
  match jget j keys with
  | some (Json.str v) => some v
  | _ => none

/-- `md_json_getl`: integer value at a key path, `0` otherwise. -/
def md_json_getl (j : Json) (keys : List String) : Int :=
  match jget j keys with
  | some (Json.num v) => v
  | _ => 0

/-- Set one object member, replacing an existing binding of the key. -/
def jset (j : Json) (k : String) (v : Json) : Json :=
  match j with
  | Json.obj mems => Json.obj (mems.filter (fun m => !(m.1 == k)) ++ [(k, v)])
  | _ => j

/-- `md_json_sets`: store a string at a key path, creating intermediate
objects. -/
def md_json_sets (v : String) : Json → List String → Json
  | _, [] => Json.str v
  | j, [k] => jset j k (Json.str v)
  | j, k :: k2 :: ks =>
    jset j k (md_json_sets v ((jmem j k).getD (Json.obj [])) (k2 :: ks))

/-- `md_json_setl`: store an integer at a (single) key. -/
def md_json_setl (v : Int) (j : Json) (k : String) : Json :=
  jset j k (Json.num v)

/-! ## HTTP transport model (`md_http`, an external collaborator)

A run of the engine consumes a trace (`World`) of transport responses, one
per suspension point (spec §5).  `md_http_GET/POSTd/HEAD` of this source
vintage perform the exchange eagerly and hand the callback's return value
back as the request outcome (spec §6, §4.2). -/

/-- apr tables have case-insensitive keys. -/
abbrev Table := List (String × String)

/-- `apr_table_get`. -/
def apr_table_get (t : Table) (k : String) : Option String :=
  (t.find? (fun p => natEq p.1 k)).map (fun p => p.2)

/-- `apr_table_set`: replace any existing binding of the key. -/
def apr_table_set (t : Table) (k v : String) : Table :=
  t.filter (fun p => !(natEq p.1 k)) ++ [(k, v)]

/-- Outcome of `md_json_read_http` on a response body: a parsed document,
or a failure status (`APR_ENOENT` meaning "not JSON content"). -/
inductive ParseResult where
  | ok (j : Json)
  | fail (rv : ApStatus)

/-- One transport response as delivered to a callback: transport status
`rv`, HTTP status code, headers, and what `md_json_read_http` would make of
the body. -/
structure HttpRes where
  rv : ApStatus := ApStatus.success
  status : Nat := 200
  headers : Table := []
  parse : ParseResult := ParseResult.fail ApStatus.enoent

/-- Responses past the end of the supplied trace are modelled as transport
failures. -/
def noRes : HttpRes :=
  { rv := ApStatus.egeneral, status := 0, headers := [],
    parse := ParseResult.fail ApStatus.egeneral }

/-- Take the next transport response off the trace. -/
def popRes : List HttpRes → HttpRes × List HttpRes
  | [] => (noRes, [])
  | r :: w => (r, w)

/-! ## Session and request engine (`md_acme.c`) -/

/-- The ACME session (`md_acme_t`): server URL, account key (opaque
material), the directory cache and the single-slot nonce cache. -/
structure Acme where
  url : String
  acct_key : String := ""
  new_authz : Option String := none
  new_cert : Option String := none
  new_reg : Option String := none
  revoke_cert : Option String := none
  nonce : Option String := none

/-- One ACME request (`md_acme_req_t`), generic over the callback baton
type.  `on_init` receives the baton and the protected headers and yields
the signed `req_json`; `on_json` / `on_res` consume the response. -/
structure Req (β : Type) where
  method : String
  url : String
  prot_hdrs : Table := []
  req_json : Option Json := none
  on_init : Option (β → Table → ApStatus × Option Json) := none
  on_json : Option (Acme → Table → Json → β → ApStatus × β) := none
  on_res : Option (Acme → HttpRes → β → ApStatus × β) := none
  baton : β

/-- `req_update_nonce` (md_acme.c lines 154-162): refresh the session nonce
from a `Replay-Nonce` header when present. -/
def req_update_nonce (acme : Acme) (hdrs : Table) : Acme :=
  match apr_table_get hdrs "Replay-Nonce" with
  | some n => { acme with nonce := some n }
  | none => acme

/-- The HTTP-status fallback of `inspect_problem` (md_acme.c lines
250-264). -/
def inspect_status (res : HttpRes) : ApStatus :=
  if res.rv = ApStatus.success then
    match res.status with
    | 400 => ApStatus.einval
    | 403 => ApStatus.eacces
    | 404 => ApStatus.enoent
    | _ => ApStatus.egeneral
  else res.rv

/-- `inspect_problem` (md_acme.c lines 227-265): on an RFC-7807 problem
document, classify its `type`; otherwise map the bare HTTP status.  (On a
problem document without a `type` member the C passes `NULL` into
`strstr`; that is modelled as an unmatched type, which classifies as
`General`.) -/
def inspect_problem (resp_hdrs : Table) (res : HttpRes) : ApStatus :=
  match apr_table_get resp_hdrs "content-type" with
  | some ctype =>
    if ctype == "application/problem+json" then
      match res.parse with
      | ParseResult.ok problem =>
        problem_status_get ((md_json_gets problem ["type"]).getD "")
      | ParseResult.fail _ => inspect_status res
    else inspect_status res
  | none => inspect_status res

/-- Result of running `on_response`: the callback-chain outcome, the
session afterwards, the final baton, and how many times the request pool
was destroyed (`md_acme_req_done`) on the way. -/
structure RespOut (β : Type) where
  rv : ApStatus
  acme : Acme
  baton : β
  frees : Nat

/-- The `!processed && req->on_res` tail of `on_response` (md_acme.c lines
314-324): hand the raw response to `on_res`, or fail `APR_EINVAL` when no
consumer processed the body. -/
def on_response_res {β : Type} (acme : Acme) (req : Req β) (res : HttpRes) : RespOut β :=
  match req.on_res with
  | some g =>
    let rb := g acme res req.baton
    { rv := rb.1, acme := acme, baton := rb.2, frees := 1 }
  | none => { rv := ApStatus.einval, acme := acme, baton := req.baton, frees := 1 }

/-- `on_response` (md_acme.c lines 279-333).  On transport failure the
error propagates untouched; otherwise the headers are cloned, the nonce is
refreshed from `Replay-Nonce`, and the body is dispatched to `on_json` /
`on_res` (2xx) or to `inspect_problem`.  All paths reach the `out:` label,
which destroys the request pool exactly once. -/
def on_response {β : Type} (acme : Acme) (req : Req β) (res : HttpRes) : RespOut β :=
  if res.rv ≠ ApStatus.success then
    { rv := res.rv, acme := acme, baton := req.baton, frees := 1 }
  else
    let resp_hdrs := res.headers
    let acme := req_update_nonce acme res.headers
    if 200 ≤ res.status ∧ res.status < 300 then
      match req.on_json with
      | some f =>
        (match res.parse with
         | ParseResult.ok jbody =>
           let rb := f acme resp_hdrs jbody req.baton
           { rv := rb.1, acme := acme, baton := rb.2, frees := 1 }
         | ParseResult.fail prv =>
           if prv = ApStatus.enoent then
             on_response_res acme req res
           else
             { rv := prv, acme := acme, baton := req.baton, frees := 1 })
      | none => on_response_res acme req res
    else
      { rv := inspect_problem resp_hdrs res, acme := acme, baton := req.baton, frees := 1 }

/-- Which exit path a run of `md_acme_req_send` took. -/
inductive ExitPath where
  | setupFail
  | nonceFail
  | initFail
  | badMethod
  | dispatched
deriving DecidableEq, Repr

/-- What the engine handed to the transport: the request as dispatched,
the session nonce at that moment, and the transport response consumed. -/
structure DispatchInfo where
  method : String
  url : String
  prot_hdrs : Table
  body : Option Json
  nonce_at_dispatch : Option String
  res : HttpRes

/-- Result of `md_acme_req_send`: outcome, session afterwards, final
baton, the number of request-pool releases, and the exit path taken. -/
structure SendResult (β : Type) where
  rv : ApStatus
  acme : Acme
  baton : β
  frees : Nat
  exit : ExitPath
  dispatched : Option DispatchInfo := none

/-- The dispatch tail of `md_acme_req_send` (md_acme.c lines 358-399):
run `on_init`, serialize `req_json`, hand the request to the transport
(`GET`/`POST`/`HEAD`; anything else is `APR_ENOTIMPL`).  After a dispatch
the local `req` is set to `NULL`, so the pool is destroyed only by
`on_response`; on the unknown-method path this skips the destroy
altogether.  When `on_init` fails, `md_acme_req_done` destroys the pool
here. -/
def req_send_dispatch {β : Type} (acme : Acme) (req : Req β) (w : List HttpRes) :
    SendResult β × List HttpRes :=
  let ini :=
    match req.on_init with
    | some f => f req.baton req.prot_hdrs
    | none => (ApStatus.success, req.req_json)
  if ini.1 = ApStatus.success then
    let req := { req with req_json := ini.2 }
    let body := req.req_json
    if req.method == "GET" || req.method == "POST" || req.method == "HEAD" then
      let pr := popRes w
      let o := on_response acme req pr.1
      ({ rv := o.rv, acme := o.acme, baton := o.baton, frees := o.frees,
         exit := ExitPath.dispatched,
         dispatched := some { method := req.method, url := req.url,
                              prot_hdrs := req.prot_hdrs, body := body,
                              nonce_at_dispatch := acme.nonce, res := pr.1 } }, pr.2)
    else
      ({ rv := ApStatus.enotimpl, acme := acme, baton := req.baton, frees := 0,
         exit := ExitPath.badMethod }, w)
  else
    ({ rv := ini.1, acme := acme, baton := req.baton, frees := 1,
       exit := ExitPath.initFail }, w)

/-- `md_acme_GET` (md_acme.c lines 423-442): build a `GET` request and send
it.  For a `GET` the precondition block of `md_acme_req_send` is skipped,
so the send is exactly the dispatch tail (`md_acme_GET_sends` below checks
this against the full definition). -/
def md_acme_GET {β : Type} (acme : Acme) (url : String)
    (oninit : Option (β → Table → ApStatus × Option Json))
    (onjson : Option (Acme → Table → Json → β → ApStatus × β))
    (onres : Option (Acme → HttpRes → β → ApStatus × β))
    (baton : β) (w : List HttpRes) : SendResult β × List HttpRes :=
  req_send_dispatch acme
    { method := "GET", url := url, on_init := oninit, on_json := onjson,
      on_res := onres, baton := baton } w

/-- `on_got_json` (md_acme.c lines 452-459): clone the body into the
caller's context. -/
def on_got_json : Acme → Table → Json → Option Json → ApStatus × Option Json :=
  fun _ _ jbody _ => (ApStatus.success, some jbody)

/-- `md_acme_get_json` (md_acme.c lines 461-473): `GET` with `on_got_json`;
the out parameter is the context's clone on success and `NULL` otherwise. -/
def md_acme_get_json (acme : Acme) (url : String) (w : List HttpRes) :
    (ApStatus × Option Json) × Acme × List HttpRes :=
  let rw := md_acme_GET acme url none (some on_got_json) none none w
  ((rw.1.rv, if rw.1.rv = ApStatus.success then rw.1.baton else none), rw.1.acme, rw.2)

/-- `md_acme_setup` (md_acme.c lines 127-149): fetch the directory JSON
from the server URL, store the four endpoint fields, and succeed exactly
when all four are present (`APR_EINVAL` otherwise).  Note the fields are
assigned before the completeness check. -/
def md_acme_setup (acme : Acme) (w : List HttpRes) : ApStatus × Acme × List HttpRes :=
  let g := md_acme_get_json acme acme.url w
  let rv := g.1.1
  let acme := g.2.1
  let w := g.2.2
  if rv = ApStatus.success then
    match g.1.2 with
    | some json =>
      let acme := { acme with
        new_authz := md_json_gets json ["new-authz"],
        new_cert := md_json_gets json ["new-cert"],
        new_reg := md_json_gets json ["new-reg"],
        revoke_cert := md_json_gets json ["revoke-cert"] }
      if acme.new_authz.isSome ∧ acme.new_cert.isSome ∧ acme.new_reg.isSome
          ∧ acme.revoke_cert.isSome then
        (ApStatus.success, acme, w)
      else
        (ApStatus.einval, acme, w)
    | none => (ApStatus.einval, acme, w)
  else (rv, acme, w)

/-- `http_update_nonce` (md_acme.c lines 164-174): harvest `Replay-Nonce`
whatever the transport status, then return the transport status. -/
def http_update_nonce (acme : Acme) (res : HttpRes) : ApStatus × Acme :=
  let acme :=
    match apr_table_get res.headers "Replay-Nonce" with
    | some n => { acme with nonce := some n }
    | none => acme
  (res.rv, acme)

/-- `md_acme_new_nonce` (md_acme.c lines 176-184): a `HEAD` to `new_reg`
solely to harvest a `Replay-Nonce`. -/
def md_acme_new_nonce (acme : Acme) (w : List HttpRes) :
    ApStatus × Acme × List HttpRes :=
  let pr := popRes w
  let ra := http_update_nonce acme pr.1
  (ra.1, ra.2, pr.2)

/-- `md_acme_req_send` (md_acme.c lines 335-400).  For a signed request
(method neither `GET` nor `HEAD`): resolve the directory if needed, fetch
a nonce if the slot is empty, install the nonce into the protected headers
and consume it (slot to `NULL`), then dispatch.  A precondition failure
returns early without touching the request pool. -/
def md_acme_req_send {β : Type} (acme : Acme) (req : Req β) (w : List HttpRes) :
    SendResult β × List HttpRes :=
  if req.method == "GET" || req.method == "HEAD" then
    req_send_dispatch acme req w
  else
    let s1 :=
      if acme.new_authz = none then md_acme_setup acme w
      else (ApStatus.success, acme, w)
    if s1.1 ≠ ApStatus.success then
      ({ rv := s1.1, acme := s1.2.1, baton := req.baton, frees := 0,
         exit := ExitPath.setupFail }, s1.2.2)
    else
      let s2 :=
        if s1.2.1.nonce = none then md_acme_new_nonce s1.2.1 s1.2.2
        else (ApStatus.success, s1.2.1, s1.2.2)
      if s2.1 ≠ ApStatus.success then
        ({ rv := s2.1, acme := s2.2.1, baton := req.baton, frees := 0,
           exit := ExitPath.nonceFail }, s2.2.2)
      else
        let acme := s2.2.1
        let req := { req with
          prot_hdrs := apr_table_set req.prot_hdrs "nonce" (acme.nonce.getD "") }
        let acme := { acme with nonce := none }
        req_send_dispatch acme req s2.2.2

/-- `md_acme_POST` (md_acme.c lines 402-421): build a `POST` request and
send it. -/
def md_acme_POST {β : Type} (acme : Acme) (url : String)
    (oninit : Option (β → Table → ApStatus × Option Json))
    (onjson : Option (Acme → Table → Json → β → ApStatus × β))
    (onres : Option (Acme → HttpRes → β → ApStatus × β))
    (baton : β) (w : List HttpRes) : SendResult β × List HttpRes :=
  md_acme_req_send acme
    { method := "POST", url := url, on_init := oninit, on_json := onjson,
      on_res := onres, baton := baton } w

/-- Consistency of the `md_acme_GET` shortcut: sending a freshly built
`GET` request through the full `md_acme_req_send` is the same function. -/
theorem md_acme_GET_sends {β : Type} (acme : Acme) (url : String)
    (oninit : Option (β → Table → ApStatus × Option Json))
    (onjson : Option (Acme → Table → Json → β → ApStatus × β))
    (onres : Option (Acme → HttpRes → β → ApStatus × β))
    (baton : β) (w : List HttpRes) :
    md_acme_req_send acme
      { method := "GET", url := url, on_init := oninit, on_json := onjson,
        on_res := onres, baton := baton } w
      = md_acme_GET acme url oninit onjson onres baton w := by
  rfl

/-! ## Authorization objects (`md_acme_authz.c`) -/

/-- `md_acme_authz_state_t` (from `md_acme_authz.h`, modelled from the
spec §3: `state ∈ {UNKNOWN, PENDING, VALID, INVALID}`, persisted as an
integer code). -/
inductive AuthzState where
  | unknown
  | pending
  | valid
  | invalid
deriving DecidableEq, Repr

/-- The integer code an `AuthzState` is persisted as (`md_json_setl`). -/
def AuthzState.toInt : AuthzState → Int
  | AuthzState.unknown => 0
  | AuthzState.pending => 1
  | AuthzState.valid => 2
  | AuthzState.invalid => 3

/-- The C cast back from a persisted integer code. -/
def AuthzState.ofInt (n : Int) : AuthzState :=
  if n = 1 then AuthzState.pending
  else if n = 2 then AuthzState.valid
  else if n = 3 then AuthzState.invalid
  else AuthzState.unknown

/-- `md_acme_authz_t`: one domain's authorization resource.  `apr_pcalloc`
zero-initializes every field (`md_acme_authz_create`). -/
structure Authz where
  domain : Option String := none
  url : Option String := none
  resource : Option Json := none
  state : AuthzState := AuthzState.unknown
  dir : Option String := none

/-- `md_acme_authz_create` (md_acme_authz.c lines 41-47). -/
def md_acme_authz_create : Authz := {}

/-- `md_acme_authz_to_json` (md_acme_authz.c lines 614-625): serialize
`domain`, `url` (under key `location`), `dir` and the `state` code.
`md_json_sets` of a `NULL` string stores nothing. -/
def md_acme_authz_to_json (a : Authz) : Json :=
  let json := Json.obj []
  let json := match a.domain with
    | some d => md_json_sets d json ["domain"]
    | none => json
  let json := match a.url with
    | some u => md_json_sets u json ["location"]
    | none => json
  let json := match a.dir with
    | some dr => md_json_sets dr json ["dir"]
    | none => json
  md_json_setl a.state.toInt json "state"

/-- `md_acme_authz_from_json` (md_acme_authz.c lines 627-638). -/
def md_acme_authz_from_json (json : Json) : Authz :=
  { domain := md_json_gets json ["domain"],
    url := md_json_gets json ["location"],
    dir := md_json_gets json ["dir"],
    state := AuthzState.ofInt (md_json_getl json ["state"]),
    resource := none }

/-- `md_acme_authz_update` (md_acme_authz.c lines 146-197): reset `state`
to `UNKNOWN`, `GET` the authz resource, then map the JSON `status` field
to the state; a missing or unrecognized `status` in an otherwise valid
body fails `APR_EINVAL`. -/
def md_acme_authz_update (authz : Authz) (acme : Acme) (w : List HttpRes) :
    ApStatus × Authz × Acme × List HttpRes :=
  let authz := { authz with state := AuthzState.unknown }
  let g := md_acme_get_json acme (authz.url.getD "") w
  let oj := g.1.2
  let acme := g.2.1
  let w := g.2.2
  let ar :=
    if g.1.1 = ApStatus.success then
      match oj with
      | some json =>
        (match md_json_gets json ["status"] with
         | some s =>
           let authz := { authz with
             domain := md_json_gets json ["identifier", "value"],
             resource := some json }
           if s == "pending" then
             ({ authz with state := AuthzState.pending }, ApStatus.success)
           else if s == "valid" then
             ({ authz with state := AuthzState.valid }, ApStatus.success)
           else if s == "invalid" then
             ({ authz with state := AuthzState.invalid }, ApStatus.success)
           else
             (authz, ApStatus.success)
         | none => (authz, ApStatus.success))
      | none => (authz, ApStatus.success)
    else (authz, g.1.1)
  let rv :=
    if oj.isSome ∧ ar.1.state = AuthzState.unknown then ApStatus.einval else ar.2
  (rv, ar.1, acme, w)

/-- `md_acme_authz_retrieve` (md_acme_authz.c lines 132-144): allocate an
authz holding only the URL, run `update`, return it exactly on success. -/
def md_acme_authz_retrieve (acme : Acme) (url : String) (w : List HttpRes) :
    (ApStatus × Option Authz) × Acme × List HttpRes :=
  let authz : Authz := { url := some url }
  let u := md_acme_authz_update authz acme w
  ((u.1, if u.1 = ApStatus.success then some u.2.1 else none), u.2.2.1, u.2.2.2)

/-! ## Registering a new authorization (`md_acme_authz.c` lines 49-127) -/

/-- `md_jws_sign` (external collaborator, pinned by spec §6: JWS Flattened
JSON Serialization of the payload under the protected headers). -/
def md_jws_sign (payload : Json) (prot_hdrs : Table) : Json :=
  Json.obj [ ("payload", payload),
             ("protected", Json.obj (prot_hdrs.map (fun p => (p.1, Json.str p.2)))) ]

/-- `md_acme_req_body_init` (md_acme.c lines 215-224): serialize the
payload and sign it into `req_json`. -/
def md_acme_req_body_init (jpayload : Json) (prot_hdrs : Table) :
    ApStatus × Option Json :=
  (ApStatus.success, some (md_jws_sign jpayload prot_hdrs))

/-- `authz_req_ctx` (md_acme_authz.c lines 60-66), the baton of the authz
flows. -/
structure AuthzReqCtx where
  domain : Option String := none
  authz : Option Authz := none
  challenge_key_authz : Option String := none

/-- `on_init_authz` (md_acme_authz.c lines 78-89): the new-authz payload
`{"resource": "new-authz", "identifier": {"type": "dns", "value": domain}}`. -/
def on_init_authz (ctx : AuthzReqCtx) (prot_hdrs : Table) : ApStatus × Option Json :=
  let jpayload := Json.obj []
  let jpayload := md_json_sets "new-authz" jpayload ["resource"]
  let jpayload := md_json_sets "dns" jpayload ["identifier", "type"]
  let jpayload := md_json_sets (ctx.domain.getD "") jpayload ["identifier", "value"]
  md_acme_req_body_init jpayload prot_hdrs

/-- `authz_created` (md_acme_authz.c lines 91-112): on success read the
`location` header into a fresh authz; a missing `location` fails
`APR_EINVAL` and leaves the context empty. -/
def authz_created (_acme : Acme) (hdrs : Table) (body : Json) (ctx : AuthzReqCtx) :
    ApStatus × AuthzReqCtx :=
  match apr_table_get hdrs "location" with
  | some location =>
    (ApStatus.success,
     { ctx with authz := some { domain := ctx.domain, url := some location,
                                resource := some body, state := AuthzState.unknown,
                                dir := none } })
  | none => (ApStatus.einval, ctx)

/-- `md_acme_authz_register` (md_acme_authz.c lines 114-127): `POST` the
new-authz payload; the out parameter is the context's authz exactly on
success. -/
def md_acme_authz_register (acme : Acme) (domain : String) (w : List HttpRes) :
    (ApStatus × Option Authz) × Acme × List HttpRes :=
  let ctx : AuthzReqCtx := { domain := some domain }
  let rw := md_acme_POST acme (acme.new_authz.getD "")
    (some on_init_authz) (some authz_created) none ctx w
  ((rw.1.rv, if rw.1.rv = ApStatus.success then rw.1.baton.authz else none),
   rw.1.acme, rw.2)

/-! ## Challenges (`md_acme_authz.c` lines 199-563) -/

/-- The cryptographic collaborators (spec §6), abstract function symbols:
SHA-256, base64url, and the JWK representation of a key. -/
structure Crypto where
  sha256 : String → String
  base64url : String → String
  jwk : String → String

/-- `md_jws_pkey_thumb` (external collaborator, pinned by spec §6:
`jws_pkey_thumb(key) → base64url-sha256 of JWK`). -/
def md_jws_pkey_thumb (c : Crypto) (key : String) : String :=
  c.base64url (c.sha256 (c.jwk key))

/-- `md_acme_authz_cha_t` (md_acme_authz.c lines 52-58); string fields are
C pointers, so each is optional. -/
structure Cha where
  index : Nat := 0
  type : Option String := none
  uri : Option String := none
  token : Option String := none
  key_authz : Option String := none
deriving Repr

/-- `setup_key_authz` (md_acme_authz.c lines 250-276): recompute
`token "." thumbprint`; a stored value that disagrees is discarded
(account key rotation) and replaced, setting the changed flag; an agreeing
stored value is kept with the flag clear.  The thumbprint of the session's
account key is total here, so the computation always succeeds. -/
def setup_key_authz (c : Crypto) (cha : Cha) (acme : Acme) :
    ApStatus × Cha × Bool :=
  let thumb64 := md_jws_pkey_thumb c acme.acct_key
  let key_authz := (cha.token.getD "") ++ "." ++ thumb64
  let cha :=
    match cha.key_authz with
    | some stored => if stored == key_authz then cha else { cha with key_authz := none }
    | none => cha
  if cha.key_authz = none then
    (ApStatus.success, { cha with key_authz := some key_authz }, true)
  else
    (ApStatus.success, cha, false)

/-- `cha_from_json` (md_acme_authz.c lines 202-219): read one server
challenge; ACMEv2 uses key `url`, ACMEv1 key `uri`. -/
def cha_from_json (index : Nat) (json : Json) : Cha :=
  { index := index,
    type := md_json_gets json ["type"],
    uri := if (jmem json "url").isSome
           then md_json_gets json ["url"]
           else md_json_gets json ["uri"],
    token := md_json_gets json ["token"],
    key_authz := md_json_gets json ["keyAuthorization"] }

/-- The scan `md_json_itera(find_type, ...)` performs (md_acme_authz.c
lines 504-514): the first server challenge whose `type` matches the wanted
type case-insensitively, with its array index. -/
def find_type (t : String) : List Json → Nat → Option Cha
  | [], _ => none
  | json :: rest, index =>
    match md_json_gets json ["type"] with
    | some ctype =>
      if natEq t ctype then some (cha_from_json index json)
      else find_type t rest (index + 1)
    | none => find_type t rest (index + 1)

/-- The preference loop of `md_acme_authz_respond` (md_acme_authz.c lines
531-535): first matching preference wins, scanning the server array for
each preference in caller order. -/
def select_challenge (prefs : List String) (elems : List Json) : Option Cha :=
  match prefs with
  | [] => none
  | p :: ps =>
    match find_type p elems 0 with
    | some cha => some cha
    | none => select_challenge ps elems

/-- The server challenge array inside an authz resource
(`resource.challenges`); `md_json_itera` over a missing or non-array key
iterates nothing. -/
def challengesOf (resource : Json) : List Json :=
  match jmem resource "challenges" with
  | some (Json.arr elems) => elems
  | _ => []

/-- The `CHA_TYPES` handler table (md_acme_authz.c lines 478-483), with
the three starters as abstract handlers (their bodies drive stores and
secondary POSTs, outside the scope of the dispatcher model).  The name
constants `MD_AUTHZ_TYPE_*` are `"http-01"`, `"tls-alpn-01"`,
`"tls-sni-01"` (spec §2, §8 S3). -/
def CHA_TYPES (h ta ts : Cha → ApStatus) : List (String × (Cha → ApStatus)) :=
  [ ("http-01", h), ("tls-alpn-01", ta), ("tls-sni-01", ts) ]

/-- `md_acme_authz_respond` (md_acme_authz.c lines 516-563): select a
challenge in caller preference order; no match fails `APR_EINVAL`, a match
without a registered handler fails `APR_ENOTIMPL`, otherwise the handler
runs on the accepted challenge. -/
def md_acme_authz_respond (starters : List (String × (Cha → ApStatus)))
    (authz : Authz) (prefs : List String) : ApStatus :=
  let elems := challengesOf (authz.resource.getD (Json.obj []))
  match select_challenge prefs elems with
  | none => ApStatus.einval
  | some accepted =>
    match starters.find? (fun nt => natEq nt.1 (accepted.type.getD "")) with
    | some nt => nt.2 accepted
    | none => ApStatus.enotimpl

/-! ## Theorems -/

/-- C8: converting an authorization record to JSON and back is the
identity on `domain`, `url` (serialized as `location`), `dir` and
`state`. -/
theorem authz_json_roundtrip (a : Authz) :
    (md_acme_authz_from_json (md_acme_authz_to_json a)).domain = a.domain ∧
    (md_acme_authz_from_json (md_acme_authz_to_json a)).url = a.url ∧
    (md_acme_authz_from_json (md_acme_authz_to_json a)).dir = a.dir ∧
    (md_acme_authz_from_json (md_acme_authz_to_json a)).state = a.state := by
  rcases a with ⟨dom, url, res, st, dir⟩
  cases dom <;> cases url <;> cases dir <;> cases st <;>
    simp [md_acme_authz_to_json, md_acme_authz_from_json, md_json_sets, md_json_setl,
          jset, md_json_gets, md_json_getl, jget, jmem, AuthzState.toInt,
          AuthzState.ofInt, List.find?, List.filter]

/-- C5: `setup_key_authz` always leaves
`key_authz = token ++ "." ++ base64url(sha256(JWK(account key)))` — a pure
function of the token and the account key; a stored value that disagrees
is replaced with the fresh one and the changed flag is set; an agreeing
stored value is kept and the flag stays clear. -/
theorem setup_key_authz_key_identity (c : Crypto) (cha : Cha) (acme : Acme)
    (t : String) (htok : cha.token = some t) :
    (setup_key_authz c cha acme).2.1.key_authz
      = some (t ++ "." ++ c.base64url (c.sha256 (c.jwk acme.acct_key))) ∧
    (∀ v, cha.key_authz = some v
        → v ≠ t ++ "." ++ c.base64url (c.sha256 (c.jwk acme.acct_key))
        → (setup_key_authz c cha acme).2.2 = true) ∧
    (cha.key_authz = some (t ++ "." ++ c.base64url (c.sha256 (c.jwk acme.acct_key)))
        → (setup_key_authz c cha acme).2.1 = cha ∧ (setup_key_authz c cha acme).2.2 = false) := by
  unfold setup_key_authz md_jws_pkey_thumb
  rcases hka : cha.key_authz with _ | v
  · simp [htok, hka]
  · by_cases hv : v = t ++ "." ++ c.base64url (c.sha256 (c.jwk acme.acct_key))
    · simp [htok, hka, hv]
    · simp [htok, hka, hv]

/-- Witness for C5 at a concrete input: identity crypto functions, token
`"T"`, account key `"K"`, an empty stored value. -/
theorem setup_key_authz_key_identity_witness :
    (setup_key_authz ⟨fun s => s, fun s => s, fun s => s⟩
        { token := some "T" } { url := "u", acct_key := "K" }).2.1.key_authz
      = some ("T" ++ "." ++ "K") ∧
    (∀ v, ({ token := some "T" } : Cha).key_authz = some v
        → v ≠ "T" ++ "." ++ "K"
        → (setup_key_authz ⟨fun s => s, fun s => s, fun s => s⟩
            { token := some "T" } { url := "u", acct_key := "K" }).2.2 = true) ∧
    (({ token := some "T" } : Cha).key_authz = some ("T" ++ "." ++ "K")
        → (setup_key_authz ⟨fun s => s, fun s => s, fun s => s⟩
            { token := some "T" } { url := "u", acct_key := "K" }).2.1
              = { token := some "T" } ∧
          (setup_key_authz ⟨fun s => s, fun s => s, fun s => s⟩
            { token := some "T" } { url := "u", acct_key := "K" }).2.2 = false) :=
  setup_key_authz_key_identity ⟨fun s => s, fun s => s, fun s => s⟩
    { token := some "T" } { url := "u", acct_key := "K" } "T" rfl

/-- `on_response` destroys the request pool exactly once, on every path
through it. -/
theorem on_response_frees {β : Type} (acme : Acme) (req : Req β) (res : HttpRes) :
    (on_response acme req res).frees = 1 := by
  unfold on_response on_response_res
  split
  · rfl
  · split
    · cases req.on_json
      · cases req.on_res <;> rfl
      · rcases res.parse with _ | prv
        · rfl
        · by_cases hp : prv = ApStatus.enoent
          · cases req.on_res <;> simp [hp]
          · simp [hp]
    · rfl

/-- The session state after `on_response`: untouched on transport failure,
otherwise refreshed from the response headers; the callbacks never touch
the session. -/
theorem on_response_acme {β : Type} (acme : Acme) (req : Req β) (res : HttpRes) :
    (on_response acme req res).acme =
      if res.rv = ApStatus.success then req_update_nonce acme res.headers else acme := by
  unfold on_response on_response_res
  by_cases h : res.rv = ApStatus.success
  · simp only [h]
    split
    · simp_all
    · split
      · cases req.on_json
        · cases req.on_res <;> rfl
        · rcases res.parse with _ | prv
          · rfl
          · by_cases hp : prv = ApStatus.enoent
            · cases req.on_res <;> simp [hp]
            · simp [hp]
      · rfl
  · simp [h]

/-- C4: for any transport-delivered response whose headers carry
`Replay-Nonce: X`, the session nonce equals `X` immediately after
`on_response` processed it, whatever the HTTP status code. -/
theorem on_response_nonce_refresh {β : Type} (acme : Acme) (req : Req β)
    (res : HttpRes) (X : String)
    (hrv : res.rv = ApStatus.success)
    (hX : apr_table_get res.headers "Replay-Nonce" = some X) :
    (on_response acme req res).acme.nonce = some X := by
  rw [on_response_acme, if_pos hrv]
  unfold req_update_nonce
  rw [hX]

/-- Witness for C4: a `404` response carrying `Replay-Nonce: N2` leaves the
session nonce at `N2`. -/
theorem on_response_nonce_refresh_witness :
    (on_response { url := "https://ca/acme" }
      ({ method := "GET", url := "u", baton := () } : Req Unit)
      { rv := ApStatus.success, status := 404,
        headers := [("Replay-Nonce", "N2")],
        parse := ParseResult.fail ApStatus.enoent }).acme.nonce = some "N2" :=
  on_response_nonce_refresh { url := "https://ca/acme" }
    ({ method := "GET", url := "u", baton := () } : Req Unit)
    { rv := ApStatus.success, status := 404,
      headers := [("Replay-Nonce", "N2")],
      parse := ParseResult.fail ApStatus.enoent } "N2" rfl (by decide)

/-- C9: `md_acme_authz_update` resets the state to `UNKNOWN` at entry, so
whenever the call returns a non-success status the authz's state is
`UNKNOWN` afterwards, whatever it was before the call. -/
theorem authz_update_fail_unknown (authz : Authz) (acme : Acme) (w : List HttpRes)
    (h : (md_acme_authz_update authz acme w).1 ≠ ApStatus.success) :
    (md_acme_authz_update authz acme w).2.1.state = AuthzState.unknown := by
  unfold md_acme_authz_update at h ⊢
  dsimp only at h ⊢
  rcases hg : md_acme_get_json acme (authz.url.getD "") w with ⟨⟨rv, oj⟩, acme2, w2⟩
  dsimp only at h ⊢
  by_cases hrv : rv = ApStatus.success
  · subst hrv
    rcases oj with _ | json
    · rfl
    · rcases hs : md_json_gets json ["status"] with _ | s
      all_goals simp only [hs] at h ⊢
      · rfl
      · by_cases h1 : (s == "pending") = true
        all_goals simp only [h1] at h ⊢
        · simp_all
        · by_cases h2 : (s == "valid") = true
          all_goals simp only [h2] at h ⊢
          · simp_all
          · by_cases h3 : (s == "invalid") = true
            all_goals simp only [h3] at h ⊢
            · simp_all
            · rfl
  · simp_all

/-- Witness for C9: an authz previously `VALID` whose refresh hits a
transport failure (empty trace) ends `UNKNOWN` and the call fails. -/
theorem authz_update_fail_unknown_witness :
    (md_acme_authz_update
        { url := some "https://ca/authz/1", state := AuthzState.valid }
        { url := "https://ca/acme" } []).2.1.state = AuthzState.unknown :=
  authz_update_fail_unknown
    { url := some "https://ca/authz/1", state := AuthzState.valid }
    { url := "https://ca/acme" } [] (by decide)

/-- A `GET` through the engine against a trace headed by a well-formed JSON
response delivers that document and refreshes the nonce from its headers. -/
theorem md_acme_get_json_ok (acme : Acme) (url : String) (r : HttpRes)
    (w : List HttpRes) (j : Json)
    (hrv : r.rv = ApStatus.success) (hst : 200 ≤ r.status ∧ r.status < 300)
    (hp : r.parse = ParseResult.ok j) :
    md_acme_get_json acme url (r :: w)
      = ((ApStatus.success, some j), req_update_nonce acme r.headers, w) := by
  unfold md_acme_get_json md_acme_GET req_send_dispatch on_response popRes on_got_json
  simp [hrv, hst, hp]

/-- C1 (amended): when the directory fetch delivers a JSON document,
`Setup()` succeeds iff all four endpoints are present and returns
`InvalidArgument` otherwise — but it stores whatever endpoints were
present before the completeness check, so a failed `Setup()` can leave a
partial directory in the session. -/
theorem md_acme_setup_directory (acme : Acme) (r : HttpRes) (w : List HttpRes)
    (j : Json)
    (hrv : r.rv = ApStatus.success) (hst : 200 ≤ r.status ∧ r.status < 300)
    (hp : r.parse = ParseResult.ok j) :
    ((md_acme_setup acme (r :: w)).1 = ApStatus.success ↔
      ((md_json_gets j ["new-authz"]).isSome ∧ (md_json_gets j ["new-cert"]).isSome
        ∧ (md_json_gets j ["new-reg"]).isSome ∧ (md_json_gets j ["revoke-cert"]).isSome)) ∧
    ((md_acme_setup acme (r :: w)).1 = ApStatus.success
      ∨ (md_acme_setup acme (r :: w)).1 = ApStatus.einval) ∧
    (md_acme_setup acme (r :: w)).2.1.new_authz = md_json_gets j ["new-authz"] ∧
    (md_acme_setup acme (r :: w)).2.1.new_cert = md_json_gets j ["new-cert"] ∧
    (md_acme_setup acme (r :: w)).2.1.new_reg = md_json_gets j ["new-reg"] ∧
    (md_acme_setup acme (r :: w)).2.1.revoke_cert = md_json_gets j ["revoke-cert"] := by
  unfold md_acme_setup
  rw [md_acme_get_json_ok acme acme.url r w j hrv hst hp]
  dsimp only
  by_cases hall : (md_json_gets j ["new-authz"]).isSome ∧ (md_json_gets j ["new-cert"]).isSome
      ∧ (md_json_gets j ["new-reg"]).isSome ∧ (md_json_gets j ["revoke-cert"]).isSome
  · simp [hall]
  · simp [hall]

/-- Witness for C1 (amended): a complete directory makes `Setup()`
succeed. -/
theorem md_acme_setup_directory_witness :
    (md_acme_setup { url := "https://ca/acme" }
      [{ rv := ApStatus.success, status := 200, headers := [],
         parse := ParseResult.ok (Json.obj
           [ ("new-authz", Json.str "u1"), ("new-cert", Json.str "u2"),
             ("new-reg", Json.str "u3"), ("revoke-cert", Json.str "u4") ]) }]).1
      = ApStatus.success :=
  ((md_acme_setup_directory { url := "https://ca/acme" }
      { rv := ApStatus.success, status := 200, headers := [],
        parse := ParseResult.ok (Json.obj
          [ ("new-authz", Json.str "u1"), ("new-cert", Json.str "u2"),
            ("new-reg", Json.str "u3"), ("revoke-cert", Json.str "u4") ]) }
      [] _ rfl (by decide) rfl).1).mpr (by decide)

/-- Counterexample to C1 as stated: the spec's scenario S1 — a directory
missing `revoke-cert` — makes `Setup()` fail with `InvalidArgument`, yet
the session is left holding `new-authz` (a partial directory; the engine's
resolvedness test `!acme->new_authz` now considers the directory
resolved), contradicting "leaves the session's directory unresolved /
holds no partial directory". -/
theorem md_acme_setup_partial_cx :
    (md_acme_setup { url := "https://ca/acme" }
      [{ rv := ApStatus.success, status := 200, headers := [],
         parse := ParseResult.ok (Json.obj
           [ ("new-authz", Json.str "u1"), ("new-cert", Json.str "u2"),
             ("new-reg", Json.str "u3") ]) }]).1 = ApStatus.einval
    ∧ (md_acme_setup { url := "https://ca/acme" }
      [{ rv := ApStatus.success, status := 200, headers := [],
         parse := ParseResult.ok (Json.obj
           [ ("new-authz", Json.str "u1"), ("new-cert", Json.str "u2"),
             ("new-reg", Json.str "u3") ]) }]).2.1.new_authz = some "u1" :=
  ⟨rfl, rfl⟩

/-- Every entry of the `Problems` table is an error, so the classifier
never produces `APR_SUCCESS`. -/
theorem problem_status_get_ne (t : String) :
    problem_status_get t ≠ ApStatus.success := by
  unfold problem_status_get
  rcases hfind : Problems.find? (fun e => natEq (strip_urn t) e.1) with _ | e
  all_goals simp only [hfind]
  · simp
  · have hmem := List.mem_of_find?_eq_some hfind
    fin_cases hmem <;> decide

/-- The HTTP-status fallback never produces `APR_SUCCESS` when the
transport succeeded. -/
theorem inspect_status_ne (res : HttpRes) (hrv : res.rv = ApStatus.success) :
    inspect_status res ≠ ApStatus.success := by
  unfold inspect_status
  rw [if_pos hrv]
  split <;> simp

/-- `inspect_problem` never produces `APR_SUCCESS` when the transport
succeeded. -/
theorem inspect_problem_ne (resp_hdrs : Table) (res : HttpRes)
    (hrv : res.rv = ApStatus.success) :
    inspect_problem resp_hdrs res ≠ ApStatus.success := by
  unfold inspect_problem
  rcases hct : apr_table_get resp_hdrs "content-type" with _ | ct
  · exact inspect_status_ne res hrv
  · dsimp only
    split
    · rcases hp : res.parse with j | prv
      · exact problem_status_get_ne _
      · exact inspect_status_ne res hrv
    · exact inspect_status_ne res hrv

/-- A response is well formed when a body-parse failure carries an error
status (`md_json_read_http` never fails with `APR_SUCCESS`). -/
def resWf (r : HttpRes) : Prop :=
  ∀ c, r.parse = ParseResult.fail c → c ≠ ApStatus.success

/-- The out-of-trace default response is well formed. -/
theorem noRes_wf : resWf noRes := by
  intro c hc
  simp only [noRes] at hc
  cases hc
  decide

/-- The head of a well-formed trace is well formed. -/
theorem popRes_wf (w : List HttpRes) (hwf : ∀ r ∈ w, resWf r) :
    resWf (popRes w).1 := by
  cases w with
  | nil => exact noRes_wf
  | cons r w => exact hwf r (List.mem_cons_self r w)

/-- The tail of a well-formed trace is well formed. -/
theorem popRes_wf_rest (w : List HttpRes) (hwf : ∀ r ∈ w, resWf r) :
    ∀ r ∈ (popRes w).2, resWf r := by
  cases w with
  | nil => intro r hr; cases hr
  | cons r w => intro r2 hr2; exact hwf r2 (List.mem_cons_of_mem r hr2)

/-- For a request with a JSON consumer, no raw consumer, and a baton not
yet satisfying `Q`: `on_response` reports success exactly when the JSON
callback ran and established `Q` on the baton. -/
theorem on_response_rv_iff {β : Type} (Q : β → Prop) (acme : Acme) (req : Req β)
    (res : HttpRes) (f : Acme → Table → Json → β → ApStatus × β)
    (hj : req.on_json = some f) (hr : req.on_res = none)
    (hb : ¬ Q req.baton) (hwf : resWf res)
    (hf : ∀ a hs j, ((f a hs j req.baton).1 = ApStatus.success
                      ↔ Q ((f a hs j req.baton).2))) :
    ((on_response acme req res).rv = ApStatus.success
      ↔ Q ((on_response acme req res).baton)) := by
  unfold on_response on_response_res
  by_cases hrv : res.rv = ApStatus.success
  · simp only [hrv, ne_eq, not_true_eq_false, if_false, hj, hr]
    split
    · rcases hp : res.parse with j | prv
      · exact hf _ _ j
      · dsimp only
        split
        · simpa using hb
        · have := hwf prv hp
          simp_all
    · have := inspect_problem_ne res.headers res hrv
      simp_all
  · simp_all

/-- Same characterization through the dispatch tail: `on_init` and the
unknown-method exit cannot fabricate a success with an empty baton. -/
theorem req_send_dispatch_rv_iff {β : Type} (Q : β → Prop) (acme : Acme)
    (req : Req β) (w : List HttpRes) (f : Acme → Table → Json → β → ApStatus × β)
    (hj : req.on_json = some f) (hr : req.on_res = none)
    (hb : ¬ Q req.baton) (hwf : ∀ r ∈ w, resWf r)
    (hf : ∀ a hs j, ((f a hs j req.baton).1 = ApStatus.success
                      ↔ Q ((f a hs j req.baton).2))) :
    ((req_send_dispatch acme req w).1.rv = ApStatus.success
      ↔ Q ((req_send_dispatch acme req w).1.baton)) := by
  unfold req_send_dispatch
  dsimp only
  split
  · split
    · exact on_response_rv_iff Q acme _ _ f hj hr hb (popRes_wf w hwf) hf
    · simp [hb]
  · rename_i hini
    simp [hini, hb]

/-- The world left over by a `GET`-with-JSON-consumer exchange is the tail
of the trace. -/
theorem md_acme_get_json_world (acme : Acme) (url : String) (w : List HttpRes) :
    (md_acme_get_json acme url w).2.2 = (popRes w).2 := rfl

/-- `md_acme_setup` consumes exactly one transport response. -/
theorem md_acme_setup_world (acme : Acme) (w : List HttpRes) :
    (md_acme_setup acme w).2.2 = (popRes w).2 := by
  have hw := md_acme_get_json_world acme acme.url w
  unfold md_acme_setup
  dsimp only
  split
  · split
    · split
      · simpa using hw
      · simpa using hw
    · simpa using hw
  · simpa using hw

/-- `md_acme_new_nonce` consumes exactly one transport response. -/
theorem md_acme_new_nonce_world (acme : Acme) (w : List HttpRes) :
    (md_acme_new_nonce acme w).2.2 = (popRes w).2 := rfl

/-- The full send (preconditions included) reports success exactly when
the JSON callback established `Q` on the baton. -/
theorem md_acme_req_send_rv_iff {β : Type} (Q : β → Prop) (acme : Acme)
    (req : Req β) (w : List HttpRes) (f : Acme → Table → Json → β → ApStatus × β)
    (hj : req.on_json = some f) (hr : req.on_res = none)
    (hb : ¬ Q req.baton) (hwf : ∀ r ∈ w, resWf r)
    (hf : ∀ a hs j, ((f a hs j req.baton).1 = ApStatus.success
                      ↔ Q ((f a hs j req.baton).2))) :
    ((md_acme_req_send acme req w).1.rv = ApStatus.success
      ↔ Q ((md_acme_req_send acme req w).1.baton)) := by
  unfold md_acme_req_send
  dsimp only
  by_cases hm : (req.method == "GET" || req.method == "HEAD") = true
  · rw [if_pos hm]
    exact req_send_dispatch_rv_iff Q acme req w f hj hr hb hwf hf
  · rw [if_neg hm]
    set s1 := (if acme.new_authz = none then md_acme_setup acme w
      else (ApStatus.success, acme, w)) with hs1
    have hw1 : ∀ r ∈ s1.2.2, resWf r := by
      rw [hs1]
      split
      · rw [md_acme_setup_world]
        exact popRes_wf_rest w hwf
      · exact hwf
    by_cases h1 : s1.1 = ApStatus.success
    · rw [if_neg (by simp [h1])]
      set s2 := (if s1.2.1.nonce = none then md_acme_new_nonce s1.2.1 s1.2.2
        else (ApStatus.success, s1.2.1, s1.2.2)) with hs2
      have hw2 : ∀ r ∈ s2.2.2, resWf r := by
        rw [hs2]
        split
        · rw [md_acme_new_nonce_world]
          exact popRes_wf_rest _ hw1
        · exact hw1
      by_cases h2 : s2.1 = ApStatus.success
      · rw [if_neg (by simp [h2])]
        exact req_send_dispatch_rv_iff Q _ _ _ f hj hr hb hw2 hf
      · rw [if_pos h2]
        dsimp only
        simp [h2, hb]
    · rw [if_pos h1]
      dsimp only
      simp [h1, hb]

/-- C10: `md_acme_get_json`, `md_acme_authz_register` and
`md_acme_authz_retrieve` set their out parameter to `NULL` exactly when
they fail, and to a non-`NULL` result exactly when they succeed (for any
well-formed transport trace). -/
theorem result_outputs_iff_success (acme : Acme) (url u2 domain : String)
    (w1 w2 w3 : List HttpRes)
    (hw1 : ∀ r ∈ w1, resWf r) (hw2 : ∀ r ∈ w2, resWf r) :
    ((md_acme_get_json acme url w1).1.1 = ApStatus.success
      ↔ ((md_acme_get_json acme url w1).1.2).isSome = true) ∧
    ((md_acme_authz_register acme domain w2).1.1 = ApStatus.success
      ↔ ((md_acme_authz_register acme domain w2).1.2).isSome = true) ∧
    ((md_acme_authz_retrieve acme u2 w3).1.1 = ApStatus.success
      ↔ ((md_acme_authz_retrieve acme u2 w3).1.2).isSome = true) := by
  refine ⟨?_, ?_, ?_⟩
  · have h := req_send_dispatch_rv_iff (fun b => b.isSome = true) acme
      { method := "GET", url := url, on_init := none,
        on_json := some on_got_json, on_res := none, baton := (none : Option Json) }
      w1 on_got_json rfl rfl (by simp) hw1
      (by intro a hs j; simp [on_got_json])
    unfold md_acme_get_json md_acme_GET
    dsimp only
    by_cases hrv : (req_send_dispatch acme
        { method := "GET", url := url, on_init := none,
          on_json := some on_got_json, on_res := none,
          baton := (none : Option Json) } w1).1.rv = ApStatus.success
    · simpa [hrv] using h.mp hrv
    · simp [hrv]
  · have h := md_acme_req_send_rv_iff
      (fun (ctx : AuthzReqCtx) => ctx.authz.isSome = true) acme
      { method := "POST", url := acme.new_authz.getD "",
        on_init := some on_init_authz, on_json := some authz_created,
        on_res := none, baton := ({ domain := some domain } : AuthzReqCtx) }
      w2 authz_created rfl rfl (by simp) hw2
      (by
        intro a hs j
        unfold authz_created
        rcases apr_table_get hs "location" with _ | loc <;> simp)
    unfold md_acme_authz_register md_acme_POST
    dsimp only
    by_cases hrv : (md_acme_req_send acme
        { method := "POST", url := acme.new_authz.getD "",
          on_init := some on_init_authz, on_json := some authz_created,
          on_res := none, baton := ({ domain := some domain } : AuthzReqCtx) }
        w2).1.rv = ApStatus.success
    · simpa [hrv] using h.mp hrv
    · simp [hrv]
  · unfold md_acme_authz_retrieve
    dsimp only
    by_cases hrv : (md_acme_authz_update { url := some u2 } acme w3).1 = ApStatus.success
    · simp [hrv]
    · simp [hrv]

/-- Witness for C10: on an empty transport trace each of the three calls
fails and hands back `NULL`. -/
theorem result_outputs_iff_success_witness :
    (((md_acme_get_json { url := "https://ca/acme" } "u" []).1.1 = ApStatus.success
      ↔ ((md_acme_get_json { url := "https://ca/acme" } "u" []).1.2).isSome = true) ∧
    ((md_acme_authz_register { url := "https://ca/acme" } "example.com" []).1.1
        = ApStatus.success
      ↔ ((md_acme_authz_register { url := "https://ca/acme" } "example.com" []).1.2).isSome
          = true) ∧
    ((md_acme_authz_retrieve { url := "https://ca/acme" } "u2" []).1.1 = ApStatus.success
      ↔ ((md_acme_authz_retrieve { url := "https://ca/acme" } "u2" []).1.2).isSome
          = true)) :=
  result_outputs_iff_success { url := "https://ca/acme" } "u" "u2" "example.com"
    [] [] [] (by intro r hr; cases hr) (by intro r hr; cases hr)

/-- The dispatch tail releases the pool exactly once on the dispatched and
`on_init`-failure paths, and not at all on the unknown-method path. -/
theorem req_send_dispatch_frees {β : Type} (acme : Acme) (req : Req β)
    (w : List HttpRes) :
    (req_send_dispatch acme req w).1.frees =
      (match (req_send_dispatch acme req w).1.exit with
       | ExitPath.dispatched => 1
       | ExitPath.initFail => 1
       | _ => 0) := by
  unfold req_send_dispatch
  dsimp only
  split
  · split
    · dsimp only
      rw [on_response_frees]
    · rfl
  · rfl

/-- C2 (amended): the request pool is released exactly once whenever the
request reaches the transport (any callback outcome, transport failure
included) and when `on_init` fails; but on a precondition failure
(directory setup or nonce fetch failing) and on an unsupported method the
pool is not released by the request path at all (it is only reclaimed
later with the session pool). -/
theorem md_acme_req_send_pool_release {β : Type} (acme : Acme) (req : Req β)
    (w : List HttpRes) :
    (md_acme_req_send acme req w).1.frees =
      (match (md_acme_req_send acme req w).1.exit with
       | ExitPath.dispatched => 1
       | ExitPath.initFail => 1
       | _ => 0) := by
  unfold md_acme_req_send
  dsimp only
  by_cases hm : (req.method == "GET" || req.method == "HEAD") = true
  · rw [if_pos hm]
    exact req_send_dispatch_frees acme req w
  · rw [if_neg hm]
    set s1 := (if acme.new_authz = none then md_acme_setup acme w
      else (ApStatus.success, acme, w)) with hs1
    by_cases h1 : s1.1 = ApStatus.success
    · rw [if_neg (by simp [h1])]
      set s2 := (if s1.2.1.nonce = none then md_acme_new_nonce s1.2.1 s1.2.2
        else (ApStatus.success, s1.2.1, s1.2.2)) with hs2
      by_cases h2 : s2.1 = ApStatus.success
      · rw [if_neg (by simp [h2])]
        exact req_send_dispatch_frees _ _ _
      · rw [if_pos h2]
    · rw [if_pos h1]

/-- Counterexample to C2 as stated: a `POST` against a session without a
resolved directory, whose setup `GET` hits a transport failure, exits on
the precondition path and never destroys the request pool (`frees = 0`,
not the claimed exactly-once). -/
theorem md_acme_req_send_leak_cx :
    (md_acme_req_send { url := "https://ca/acme" }
      ({ method := "POST", url := "u",
         on_json := some (fun _ _ _ b => (ApStatus.success, b)),
         baton := () } : Req Unit) []).1.exit = ExitPath.setupFail
    ∧ (md_acme_req_send { url := "https://ca/acme" }
      ({ method := "POST", url := "u",
         on_json := some (fun _ _ _ b => (ApStatus.success, b)),
         baton := () } : Req Unit) []).1.frees = 0 :=
  ⟨rfl, rfl⟩

/-- `apr_strnatcasecmp` equality is reflexive. -/
theorem natEq_refl (k : String) : natEq k k = true := by simp [natEq]

/-- Reading back the key just stored with `apr_table_set`. -/
theorem apr_table_get_set (t : Table) (k v : String) :
    apr_table_get (apr_table_set t k v) k = some v := by
  unfold apr_table_get apr_table_set
  induction t with
  | nil => simp [natEq_refl]
  | cons p t ih =>
    by_cases hp : natEq p.1 k = true
    · simpa [hp] using ih
    · simpa [List.filter_cons, hp] using ih

/-- Through the dispatch tail with an empty nonce slot: the request is
handed off with the slot still empty, the protected headers as built, and
afterwards the slot is empty or refreshed from the response's
`Replay-Nonce`. -/
theorem req_send_dispatch_nonce {β : Type} (acme : Acme) (req : Req β)
    (w : List HttpRes) (hn : acme.nonce = none) :
    ∀ d, (req_send_dispatch acme req w).1.dispatched = some d →
      d.nonce_at_dispatch = none ∧
      d.prot_hdrs = req.prot_hdrs ∧
      ((req_send_dispatch acme req w).1.acme.nonce = none ∨
        ∃ n, apr_table_get d.res.headers "Replay-Nonce" = some n ∧
          (req_send_dispatch acme req w).1.acme.nonce = some n) := by
  unfold req_send_dispatch
  dsimp only
  split
  · split
    · intro d hd
      rw [Option.some_inj] at hd
      subst hd
      refine ⟨hn, rfl, ?_⟩
      dsimp only
      rw [on_response_acme]
      split
      · unfold req_update_nonce
        rcases hrn : apr_table_get (popRes w).1.headers "Replay-Nonce" with _ | n
        · left; exact hn
        · right; exact ⟨n, rfl, rfl⟩
      · left; exact hn
    · intro d hd
      exact Option.noConfusion hd
  · intro d hd
    exact Option.noConfusion hd

/-- C3: a signed request (method neither `GET` nor `HEAD`) that reaches the
transport carries a nonce in its protected headers while the session slot
is already empty (consumed before signing and dispatch); afterwards the
slot is empty or holds a value delivered by the response's `Replay-Nonce`
header, so whenever the delivered nonces are fresh the stored nonce
differs from the one used to sign. -/
theorem signed_request_nonce {β : Type} (acme : Acme) (req : Req β)
    (w : List HttpRes)
    (hm : ¬ (req.method == "GET" || req.method == "HEAD") = true) :
    ∀ d, (md_acme_req_send acme req w).1.dispatched = some d →
      d.nonce_at_dispatch = none ∧
      (∃ used, apr_table_get d.prot_hdrs "nonce" = some used) ∧
      ((md_acme_req_send acme req w).1.acme.nonce = none ∨
        ∃ n, apr_table_get d.res.headers "Replay-Nonce" = some n ∧
          (md_acme_req_send acme req w).1.acme.nonce = some n) ∧
      (∀ used, apr_table_get d.prot_hdrs "nonce" = some used →
        apr_table_get d.res.headers "Replay-Nonce" ≠ some used →
        ((md_acme_req_send acme req w).1.acme.nonce = none ∨
          (md_acme_req_send acme req w).1.acme.nonce ≠ some used)) := by
  unfold md_acme_req_send
  dsimp only
  rw [if_neg hm]
  set s1 := (if acme.new_authz = none then md_acme_setup acme w
    else (ApStatus.success, acme, w)) with hs1
  by_cases h1 : s1.1 = ApStatus.success
  · rw [if_neg (by simp [h1])]
    set s2 := (if s1.2.1.nonce = none then md_acme_new_nonce s1.2.1 s1.2.2
      else (ApStatus.success, s1.2.1, s1.2.2)) with hs2
    by_cases h2 : s2.1 = ApStatus.success
    · rw [if_neg (by simp [h2])]
      intro d hd
      have hbase := req_send_dispatch_nonce { s2.2.1 with nonce := none }
        { req with prot_hdrs :=
            apr_table_set req.prot_hdrs "nonce" (s2.2.1.nonce.getD "") }
        s2.2.2 rfl d hd
      obtain ⟨hnd, hph, hflow⟩ := hbase
      refine ⟨hnd, ?_, hflow, ?_⟩
      · exact ⟨s2.2.1.nonce.getD "", by rw [hph]; exact apr_table_get_set _ _ _⟩
      · intro used hused hfresh
        rcases hflow with hnone | ⟨n, hrn, hsome⟩
        · exact Or.inl hnone
        · right
          rw [hsome]
          intro hcontra
          exact hfresh (hrn.trans hcontra)
    · rw [if_pos h2]
      intro d hd
      exact Option.noConfusion hd
  · rw [if_pos h1]
    intro d hd
    exact Option.noConfusion hd

/-- Witness for C3: a session holding nonce `N1`, a `POST` whose response
returns `Replay-Nonce: N2`; the dispatched request carries `N1` in its
protected headers, the slot was empty at dispatch, and afterwards the
session holds `N2 ≠ N1`. -/
theorem signed_request_nonce_witness :
    ((md_acme_req_send
        { url := "https://ca/acme", new_authz := some "u", nonce := some "N1" }
        ({ method := "POST", url := "p",
           on_json := some (fun _ _ _ b => (ApStatus.success, b)),
           baton := () } : Req Unit)
        [{ rv := ApStatus.success, status := 200,
           headers := [("Replay-Nonce", "N2")],
           parse := ParseResult.fail ApStatus.enoent }]).1.acme.nonce = none ∨
      (md_acme_req_send
        { url := "https://ca/acme", new_authz := some "u", nonce := some "N1" }
        ({ method := "POST", url := "p",
           on_json := some (fun _ _ _ b => (ApStatus.success, b)),
           baton := () } : Req Unit)
        [{ rv := ApStatus.success, status := 200,
           headers := [("Replay-Nonce", "N2")],
           parse := ParseResult.fail ApStatus.enoent }]).1.acme.nonce ≠ some "N1") :=
  ((signed_request_nonce
      { url := "https://ca/acme", new_authz := some "u", nonce := some "N1" }
      ({ method := "POST", url := "p",
         on_json := some (fun _ _ _ b => (ApStatus.success, b)),
         baton := () } : Req Unit)
      [{ rv := ApStatus.success, status := 200,
         headers := [("Replay-Nonce", "N2")],
         parse := ParseResult.fail ApStatus.enoent }]
      (by decide) _ rfl).2.2.2) "N1" (by decide) (by decide)

/-- Does a server challenge object offer the given type
(case-insensitively)?  This is the test `find_type` applies to each array
element. -/
def typeMatch (t : String) (json : Json) : Bool :=
  match md_json_gets json ["type"] with
  | some ctype => natEq t ctype
  | none => false

/-- `find_type` finds an element exactly when some element of the array
offers the wanted type. -/
theorem find_type_isSome (t : String) (elems : List Json) :
    ∀ i, (find_type t elems i).isSome = elems.any (fun e => typeMatch t e) := by
  induction elems with
  | nil => intro i; rfl
  | cons e rest ih =>
    intro i
    have hhead : ∀ hv, md_json_gets e ["type"] = hv →
        typeMatch t e = (match hv with | some ct => natEq t ct | none => false) := by
      intro hv hev; unfold typeMatch; rw [hev]
    unfold find_type
    rcases he : md_json_gets e ["type"] with _ | ct
    · simp [List.any_cons, hhead _ he, ih (i + 1)]
    · by_cases hm : natEq t ct = true
      · simp [List.any_cons, hhead _ he, hm]
      · simp [List.any_cons, hhead _ he, hm, ih (i + 1)]

/-- Whatever `find_type` accepts has a type that matches the wanted one
case-insensitively. -/
theorem find_type_some_type (t : String) (elems : List Json) :
    ∀ i cha, find_type t elems i = some cha →
      ∃ ct, cha.type = some ct ∧ natEq t ct = true := by
  induction elems with
  | nil => intro i cha hc; exact Option.noConfusion hc
  | cons e rest ih =>
    intro i cha hc
    unfold find_type at hc
    rcases he : md_json_gets e ["type"] with _ | ct
    · rw [he] at hc; exact ih _ cha hc
    · rw [he] at hc
      dsimp only at hc
      by_cases hm : natEq t ct = true
      · rw [if_pos hm, Option.some_inj] at hc
        subst hc
        exact ⟨ct, by simp [cha_from_json, he], hm⟩
      · rw [if_neg hm] at hc
        exact ih _ cha hc

/-- When no preference matches any offered type, the selection loop comes
back empty. -/
theorem select_challenge_none (prefs : List String) (elems : List Json)
    (h : prefs.find? (fun p => elems.any (fun e => typeMatch p e)) = none) :
    select_challenge prefs elems = none := by
  induction prefs with
  | nil => rfl
  | cons q ps ih =>
    rw [List.find?_cons] at h
    unfold select_challenge
    by_cases hq : elems.any (fun e => typeMatch q e) = true
    · rw [hq] at h; exact Option.noConfusion h
    · rw [Bool.not_eq_true] at hq
      rw [hq] at h
      have hfq := find_type_isSome q elems 0
      rcases hft : find_type q elems 0 with _ | cha
      · rw [ih h]
      · rw [hft, hq] at hfq
        simp at hfq

/-- The selection loop accepts a challenge whose type matches, under
case-insensitive comparison, the first preference that matches any offered
type. -/
theorem select_challenge_first (prefs : List String) (elems : List Json) :
    ∀ p, prefs.find? (fun p => elems.any (fun e => typeMatch p e)) = some p →
      ∃ cha ct, select_challenge prefs elems = some cha ∧
        cha.type = some ct ∧ natEq p ct = true := by
  induction prefs with
  | nil => intro p hp; exact Option.noConfusion hp
  | cons q ps ih =>
    intro p hp
    rw [List.find?_cons] at hp
    unfold select_challenge
    by_cases hq : elems.any (fun e => typeMatch q e) = true
    · rw [hq] at hp
      rw [Option.some_inj] at hp
      subst hp
      have hfq := find_type_isSome q elems 0
      rcases hft : find_type q elems 0 with _ | cha
      · rw [hft, hq] at hfq
        simp at hfq
      · obtain ⟨ct, hct, hnat⟩ := find_type_some_type q elems 0 cha hft
        exact ⟨cha, ct, rfl, hct, hnat⟩
    · rw [Bool.not_eq_true] at hq
      rw [hq] at hp
      dsimp only at hp
      have hfq := find_type_isSome q elems 0
      rcases hft : find_type q elems 0 with _ | cha
      · exact ih p hp
      · rw [hft, hq] at hfq
        simp at hfq

/-- `List.any` only depends on membership, so a permutation of the array
leaves it unchanged. -/
theorem perm_any_eq {α : Type} (l1 l2 : List α) (h : l1.Perm l2) (p : α → Bool) :
    l1.any p = l2.any p := by
  have hiff : (l1.any p = true) ↔ (l2.any p = true) := by
    simp only [List.any_eq_true]
    constructor
    · rintro ⟨x, hx, hpx⟩; exact ⟨x, h.mem_iff.mp hx, hpx⟩
    · rintro ⟨x, hx, hpx⟩; exact ⟨x, h.mem_iff.mpr hx, hpx⟩
  exact Bool.eq_iff_iff.mpr hiff

/-- C6: `md_acme_authz_respond` selects the first caller preference that
matches any server-offered challenge type, case-insensitively; which
preference is selected does not depend on the ordering of the server's
array; no match fails `InvalidArgument`, and a match whose type has no
registered handler fails `NotImplemented`. -/
theorem authz_respond_selection (authz : Authz) (resource : Json)
    (prefs : List String) (h ta ts : Cha → ApStatus)
    (hres : authz.resource = some resource) :
    (∀ p, prefs.find? (fun p => (challengesOf resource).any
          (fun e => typeMatch p e)) = some p →
      ∃ cha ct, select_challenge prefs (challengesOf resource) = some cha ∧
        cha.type = some ct ∧ natEq p ct = true) ∧
    (∀ elems2 : List Json, (challengesOf resource).Perm elems2 →
      prefs.find? (fun p => (challengesOf resource).any (fun e => typeMatch p e))
        = prefs.find? (fun p => elems2.any (fun e => typeMatch p e))) ∧
    (prefs.find? (fun p => (challengesOf resource).any
        (fun e => typeMatch p e)) = none →
      md_acme_authz_respond (CHA_TYPES h ta ts) authz prefs = ApStatus.einval) ∧
    (∀ cha, select_challenge prefs (challengesOf resource) = some cha →
      (CHA_TYPES h ta ts).find? (fun nt => natEq nt.1 (cha.type.getD "")) = none →
      md_acme_authz_respond (CHA_TYPES h ta ts) authz prefs = ApStatus.enotimpl) := by
  refine ⟨select_challenge_first prefs _, ?_, ?_, ?_⟩
  · intro elems2 hperm
    have : (fun p => (challengesOf resource).any (fun e => typeMatch p e))
        = (fun p => elems2.any (fun e => typeMatch p e)) := by
      funext p
      exact perm_any_eq _ _ hperm _
    rw [this]
  · intro hnone
    unfold md_acme_authz_respond
    rw [hres, Option.getD_some]
    dsimp only
    rw [select_challenge_none prefs _ hnone]
  · intro cha hsel hhandler
    unfold md_acme_authz_respond
    rw [hres, Option.getD_some]
    dsimp only
    rw [hsel]
    dsimp only
    rw [hhandler]

/-- Witness for C6 (spec scenario S6): preference `dns-01` against offered
`http-01` / `tls-alpn-01` challenges makes the dispatcher fail
`InvalidArgument`. -/
theorem authz_respond_selection_witness :
    md_acme_authz_respond
      (CHA_TYPES (fun _ => ApStatus.success) (fun _ => ApStatus.success)
        (fun _ => ApStatus.success))
      { resource := some (Json.obj [("challenges", Json.arr
          [ Json.obj [("type", Json.str "http-01")],
            Json.obj [("type", Json.str "tls-alpn-01")] ])]) }
      ["dns-01"] = ApStatus.einval :=
  (authz_respond_selection
      { resource := some (Json.obj [("challenges", Json.arr
          [ Json.obj [("type", Json.str "http-01")],
            Json.obj [("type", Json.str "tls-alpn-01")] ])]) }
      (Json.obj [("challenges", Json.arr
          [ Json.obj [("type", Json.str "http-01")],
            Json.obj [("type", Json.str "tls-alpn-01")] ])])
      ["dns-01"] (fun _ => ApStatus.success) (fun _ => ApStatus.success)
      (fun _ => ApStatus.success) rfl).2.2.1 (by decide)
